import Mathlib

/-!
Verification of the onboarding wizard state container
(`src/context/OnboardingContext.tsx`) and the step-rendering fallback of
`src/components/OnboardingModal.tsx`, embedded as pure Lean functions.

JavaScript number arithmetic on indices is modelled with `Int` where the
source computes `steps.length - 1` (which is `-1` for an empty array);
the stored `currentStepIndex` itself is a `Nat` because it starts at 0 and
every mutation is a guarded `+1` or guarded `-1`.
Callback invocations (`onFinish?.()`, `onSkip?.()`) are modelled as an
explicit event trace returned next to the new state.
-/

namespace Onstage

/-- `image: string | { mobile: string; tablet?: string; desktop: string }`
from `OnboardingStep` in OnboardingContext.tsx. -/
inductive ImageRef where
  | single (uri : String)
  | responsive (mobile : String) (tablet : Option String) (desktop : String)
  deriving Repr, DecidableEq

/-- `OnboardingStep` record from OnboardingContext.tsx. -/
structure OnboardingStep where
  title : String
  description : String
  image : ImageRef
  deriving Repr, DecidableEq

/-- The state owned by `OnboardingProvider`: the two `useState` cells
(`isOpen`, `currentStepIndex`) together with the `steps` prop the
closures capture. -/
structure WizardState where
  isOpen : Bool
  currentStepIndex : Nat
  steps : List OnboardingStep
  deriving Repr, DecidableEq

/-- Which of the optional callbacks `onFinish` / `onSkip` were supplied to
`OnboardingProvider`. -/
structure ProviderConfig where
  hasOnFinish : Bool
  hasOnSkip : Bool
  deriving Repr, DecidableEq

/-- A callback invocation observable by the host. -/
inductive CallbackEvent where
  | onFinishCall
  | onSkipCall
  deriving Repr, DecidableEq

/-- Initial state of `OnboardingProvider` (lines 47-48):
`useState(defaultOpen)` and `useState(0)`. -/
def initState (steps : List OnboardingStep) (defaultOpen : Bool) : WizardState :=
  { isOpen := defaultOpen, currentStepIndex := 0, steps := steps }

/-- `nextStep` (lines 50-54): `if (currentStepIndex < steps.length - 1)
setCurrentStepIndex(prev => prev + 1)`.  The guard is JS number
arithmetic, so `steps.length - 1` is taken in `Int` (it is `-1` when
`steps` is empty). -/
def nextStep (s : WizardState) : WizardState :=
  if (s.currentStepIndex : Int) < (s.steps.length : Int) - 1 then
    { s with currentStepIndex := s.currentStepIndex + 1 }
  else s

/-- `prevStep` (lines 56-60): `if (currentStepIndex > 0)
setCurrentStepIndex(prev => prev - 1)`. -/
def prevStep (s : WizardState) : WizardState :=
  if s.currentStepIndex > 0 then
    { s with currentStepIndex := s.currentStepIndex - 1 }
  else s

/-- `finishOnboarding` (lines 62-65): `setIsOpen(false); onFinish?.()`.
Returns the new state and the trace of callback invocations this call
performs. -/
def finishOnboarding (cfg : ProviderConfig) (s : WizardState) :
    WizardState × List CallbackEvent :=
  ({ s with isOpen := false },
   if cfg.hasOnFinish then [CallbackEvent.onFinishCall] else [])

/-- `skipOnboarding` (lines 67-70): `setIsOpen(false); onSkip?.()`. -/
def skipOnboarding (cfg : ProviderConfig) (s : WizardState) :
    WizardState × List CallbackEvent :=
  ({ s with isOpen := false },
   if cfg.hasOnSkip then [CallbackEvent.onSkipCall] else [])

/-- `resetOnboarding` (lines 72-75): `setCurrentStepIndex(0); setIsOpen(true)`. -/
def resetOnboarding (s : WizardState) : WizardState :=
  { s with currentStepIndex := 0, isOpen := true }

/-- `setIsOpen` exposed directly through the context value. -/
def setIsOpen (b : Bool) (s : WizardState) : WizardState :=
  { s with isOpen := b }

/-- Two successive `finishOnboarding` calls, with the concatenated
callback trace. -/
def finishTwice (cfg : ProviderConfig) (s : WizardState) :
    WizardState × List CallbackEvent :=
  let r1 := finishOnboarding cfg s
  let r2 := finishOnboarding cfg r1.1
  (r2.1, r1.2 ++ r2.2)

/-- Derived query of the modal (OnboardingModal.tsx line 107):
`currentStepIndex === steps.length - 1` in JS number arithmetic. -/
def isLastStep (s : WizardState) : Bool :=
  (s.currentStepIndex : Int) == (s.steps.length : Int) - 1

/-- Derived query of the modal (OnboardingModal.tsx line 108):
`currentStepIndex === 0`. -/
def isFirstStep (s : WizardState) : Bool :=
  s.currentStepIndex == 0

/-- The step the modal renders (OnboardingModal.tsx lines 104-105):
`if (!steps || steps.length === 0) return null;` then
`const currentStep = steps[currentStepIndex] || steps[0];`.
A step record is always truthy in JS, so the `|| steps[0]` fallback
fires exactly when `steps[currentStepIndex]` is `undefined`, i.e. when
the index is out of bounds.  `none` models rendering `null`. -/
def renderedStep (s : WizardState) : Option OnboardingStep :=
  if s.steps.length = 0 then none
  else
    match s.steps[s.currentStepIndex]? with
    | some st => some st
    | none => s.steps[0]?

/-- A navigation operation: one call to `nextStep` (advance) or
`prevStep` (retreat). -/
inductive NavOp where
  | advance
  | retreat
  deriving Repr, DecidableEq

/-- Apply one navigation operation. -/
def applyNav : NavOp → WizardState → WizardState
  | NavOp.advance, s => nextStep s
  | NavOp.retreat, s => prevStep s

/-- Apply a finite sequence of navigation operations, left to right. -/
def applyNavSeq (ops : List NavOp) (s : WizardState) : WizardState :=
  ops.foldl (fun st op => applyNav op st) s

/-- Iterate `nextStep` a given number of times. -/
def iterateNext : Nat → WizardState → WizardState
  | 0, s => s
  | n + 1, s => nextStep (iterateNext n s)

/-- The value handed out by the context; operations are closures over the
provider state, so the observable data are the three state fields. -/
structure OnboardingContextValue where
  isOpen : Bool
  currentStepIndex : Nat
  steps : List OnboardingStep
  deriving Repr, DecidableEq

/-- `useOnboarding` (OnboardingContext.tsx lines 109-115):
`useContext` yields the provider's value or `undefined`; when it is
`undefined` the hook throws
`"useOnboarding must be used within an OnboardingProvider"`,
otherwise it returns the value. -/
def useOnboarding (ctx : Option OnboardingContextValue) :
    Except String OnboardingContextValue :=
  match ctx with
  | none => Except.error "useOnboarding must be used within an OnboardingProvider"
  | some v => Except.ok v

/-- A runtime value passed as the `steps` prop; TypeScript's annotation is
erased at runtime, so a caller may pass a non-array. -/
inductive StepsInput where
  | arr (steps : List OnboardingStep)
  | nullish
  | nonArray
  deriving Repr, DecidableEq

/-- Errors a construction-time validation could report. -/
inductive ConfigError where
  | configurationError
  deriving Repr, DecidableEq

/-- Errors reported while constructing `OnboardingProvider`
(OnboardingContext.tsx lines 40-48): the body only destructures the
props and initializes the two `useState` cells; it contains no
inspection of `steps` and no throw path, so no error is ever reported,
whatever the runtime value of `steps`. -/
def providerConstructionErrors ( _steps : StepsInput) ( _defaultOpen : Bool) :
    List ConfigError :=
  []

/- ----------------------------------------------------------------- -/
/- Helper lemmas                                                     -/
/- ----------------------------------------------------------------- -/

theorem nextStep_steps (s : WizardState) : (nextStep s).steps = s.steps := by
  unfold nextStep
  split <;> rfl

theorem prevStep_steps (s : WizardState) : (prevStep s).steps = s.steps := by
  unfold prevStep
  split <;> rfl

theorem applyNav_steps (op : NavOp) (s : WizardState) :
    (applyNav op s).steps = s.steps := by
  cases op
  · exact nextStep_steps s
  · exact prevStep_steps s

theorem nextStep_isOpen (s : WizardState) : (nextStep s).isOpen = s.isOpen := by
  unfold nextStep
  split <;> rfl

theorem prevStep_isOpen (s : WizardState) : (prevStep s).isOpen = s.isOpen := by
  unfold prevStep
  split <;> rfl

theorem nextStep_idx_le (s : WizardState) (h : s.currentStepIndex + 1 ≤ s.steps.length) :
    (nextStep s).currentStepIndex + 1 ≤ s.steps.length := by
  unfold nextStep
  split
  · next hlt =>
    simp only
    omega
  · exact h

theorem prevStep_idx_le (s : WizardState) (h : s.currentStepIndex + 1 ≤ s.steps.length) :
    (prevStep s).currentStepIndex + 1 ≤ s.steps.length := by
  unfold prevStep
  split
  · simp only
    omega
  · exact h

theorem applyNav_idx_le (op : NavOp) (s : WizardState)
    (h : s.currentStepIndex + 1 ≤ s.steps.length) :
    (applyNav op s).currentStepIndex + 1 ≤ (applyNav op s).steps.length := by
  rw [applyNav_steps]
  cases op
  · exact nextStep_idx_le s h
  · exact prevStep_idx_le s h

theorem applyNavSeq_invariant (ops : List NavOp) (s : WizardState)
    (h : s.currentStepIndex + 1 ≤ s.steps.length) :
    (applyNavSeq ops s).currentStepIndex + 1 ≤ (applyNavSeq ops s).steps.length := by
  induction ops generalizing s with
  | nil => exact h
  | cons op rest ih =>
    exact ih (applyNav op s) (applyNav_idx_le op s h)

theorem applyNavSeq_steps (ops : List NavOp) (s : WizardState) :
    (applyNavSeq ops s).steps = s.steps := by
  induction ops generalizing s with
  | nil => rfl
  | cons op rest ih =>
    calc (applyNavSeq (op :: rest) s).steps
        = (applyNavSeq rest (applyNav op s)).steps := rfl
      _ = (applyNav op s).steps := ih (applyNav op s)
      _ = s.steps := applyNav_steps op s

theorem nextStep_idx (s : WizardState) :
    (nextStep s).currentStepIndex =
      if (s.currentStepIndex : Int) < (s.steps.length : Int) - 1
      then s.currentStepIndex + 1 else s.currentStepIndex := by
  unfold nextStep
  split <;> simp_all

theorem iterateNext_steps (k : Nat) (s : WizardState) :
    (iterateNext k s).steps = s.steps := by
  induction k with
  | zero => rfl
  | succ n ih =>
    calc (iterateNext (n + 1) s).steps
        = (nextStep (iterateNext n s)).steps := rfl
      _ = (iterateNext n s).steps := nextStep_steps _
      _ = s.steps := ih

theorem iterateNext_idx (steps : List OnboardingStep) (d : Bool)
    (hN : 1 ≤ steps.length) (k : Nat) :
    (iterateNext k (initState steps d)).currentStepIndex
      = min k (steps.length - 1) := by
  induction k with
  | zero =>
    show (initState steps d).currentStepIndex = min 0 (steps.length - 1)
    simp [initState]
  | succ n ih =>
    have hsteps : (iterateNext n (initState steps d)).steps = steps :=
      iterateNext_steps n _
    show (nextStep (iterateNext n (initState steps d))).currentStepIndex
        = min (n + 1) (steps.length - 1)
    rw [nextStep_idx, hsteps, ih]
    split
    · next hlt => omega
    · next hge => omega

/-- Concrete sample steps used by witnesses. -/
def sampleSteps : List OnboardingStep :=
  [{ title := "a", description := "d1", image := ImageRef.single "u1" },
   { title := "b", description := "d2", image := ImageRef.single "u2" },
   { title := "c", description := "d3", image := ImageRef.single "u3" }]

/- ----------------------------------------------------------------- -/
/- Claims                                                            -/
/- ----------------------------------------------------------------- -/

/-- Claim C1: for every steps list with `N = length steps ≥ 1`, starting
from the constructed state (`currentIndex = 0`) and applying any finite
sequence of advance/retreat calls, `currentIndex` stays within
`[0, N-1]`. -/
theorem c1_nav_seq_bounds (steps : List OnboardingStep) (defaultOpen : Bool)
    (ops : List NavOp) (hN : 1 ≤ steps.length) :
    (applyNavSeq ops (initState steps defaultOpen)).currentStepIndex
      ≤ steps.length - 1 := by
  have hinit : (initState steps defaultOpen).currentStepIndex + 1
      ≤ (initState steps defaultOpen).steps.length := by
    simpa [initState] using hN
  have h := applyNavSeq_invariant ops (initState steps defaultOpen) hinit
  rw [applyNavSeq_steps] at h
  have hlen : (initState steps defaultOpen).steps = steps := rfl
  rw [hlen] at h
  omega

/-- Witness for C1 at a concrete input. -/
theorem c1_nav_seq_bounds_witness :
    (applyNavSeq [NavOp.advance, NavOp.advance, NavOp.retreat]
      (initState
        [{ title := "a", description := "d", image := ImageRef.single "u" },
         { title := "b", description := "e", image := ImageRef.single "v" }]
        true)).currentStepIndex ≤ 1 :=
  c1_nav_seq_bounds _ true [NavOp.advance, NavOp.advance, NavOp.retreat]
    (by decide)

/-- Claim C2: advance() increments `currentStepIndex` by exactly 1 when
`currentStepIndex < length(steps) - 1` and leaves the state unchanged
otherwise; it never changes `isOpen`; from index 0, `N - 1` calls reach
`isLastStep = true` (and no earlier call does), and one further advance
leaves the state unchanged. -/
theorem c2_advance (s : WizardState) (steps : List OnboardingStep) (d : Bool)
    (hN : 1 ≤ steps.length) :
    (((s.currentStepIndex : Int) < (s.steps.length : Int) - 1 →
        (nextStep s).currentStepIndex = s.currentStepIndex + 1) ∧
      (¬ ((s.currentStepIndex : Int) < (s.steps.length : Int) - 1) →
        nextStep s = s) ∧
      (nextStep s).isOpen = s.isOpen) ∧
    isLastStep (iterateNext (steps.length - 1) (initState steps d)) = true ∧
    (∀ k, k < steps.length - 1 →
      isLastStep (iterateNext k (initState steps d)) = false) ∧
    nextStep (iterateNext (steps.length - 1) (initState steps d)) =
      iterateNext (steps.length - 1) (initState steps d) := by
  refine ⟨⟨?_, ?_, nextStep_isOpen s⟩, ?_, ?_, ?_⟩
  · intro h
    rw [nextStep_idx]
    simp [h]
  · intro h
    unfold nextStep
    split
    · next hlt => exact absurd hlt h
    · rfl
  · have hidx := iterateNext_idx steps d hN (steps.length - 1)
    have hsteps : (iterateNext (steps.length - 1) (initState steps d)).steps
        = steps := iterateNext_steps _ _
    unfold isLastStep
    rw [hidx, hsteps]
    have hmin : min (steps.length - 1) (steps.length - 1) = steps.length - 1 :=
      min_self _
    rw [hmin]
    have hcast : ((steps.length - 1 : Nat) : Int) = (steps.length : Int) - 1 := by
      omega
    rw [hcast]
    simp
  · intro k hk
    have hidx := iterateNext_idx steps d hN k
    have hsteps : (iterateNext k (initState steps d)).steps = steps :=
      iterateNext_steps _ _
    unfold isLastStep
    rw [hidx, hsteps]
    have hmin : min k (steps.length - 1) = k := by omega
    rw [hmin]
    simp only [beq_eq_false_iff_ne, ne_eq]
    omega
  · have hidx := iterateNext_idx steps d hN (steps.length - 1)
    have hsteps : (iterateNext (steps.length - 1) (initState steps d)).steps
        = steps := iterateNext_steps _ _
    unfold nextStep
    split
    · next hlt =>
      rw [hidx, hsteps] at hlt
      have hmin : min (steps.length - 1) (steps.length - 1) = steps.length - 1 :=
        min_self _
      rw [hmin] at hlt
      omega
    · rfl

/-- Witness for C2 at the concrete three-step list. -/
theorem c2_advance_witness :
    1 ≤ sampleSteps.length ∧
    isLastStep (iterateNext (sampleSteps.length - 1)
      (initState sampleSteps true)) = true :=
  ⟨by decide,
   (c2_advance (initState sampleSteps true) sampleSteps true (by decide)).2.1⟩

/-- Claim C3: retreat() decrements `currentStepIndex` by exactly 1 when
`currentStepIndex > 0` and is a no-op otherwise; at index 0 it leaves the
state unchanged and `isFirstStep` remains true. -/
theorem c3_retreat (s : WizardState) :
    (0 < s.currentStepIndex →
      (prevStep s).currentStepIndex + 1 = s.currentStepIndex ∧
      (prevStep s).isOpen = s.isOpen ∧
      (prevStep s).steps = s.steps) ∧
    (s.currentStepIndex = 0 →
      prevStep s = s ∧ isFirstStep (prevStep s) = true) := by
  constructor
  · intro h
    unfold prevStep
    split
    · exact ⟨by simp only; omega, rfl, rfl⟩
    · omega
  · intro h
    have hfix : prevStep s = s := by
      unfold prevStep
      split
      · omega
      · rfl
    refine ⟨hfix, ?_⟩
    rw [hfix]
    unfold isFirstStep
    simp [h]

/-- Claim C4: skip() sets `isOpen` to false, invokes `onSkip` exactly once
when provided and no callback when absent, and leaves `currentStepIndex`
and `steps` unchanged. -/
theorem c4_skip (cfg : ProviderConfig) (s : WizardState) :
    (skipOnboarding cfg s).1.isOpen = false ∧
    (skipOnboarding cfg s).2.count CallbackEvent.onSkipCall =
      (if cfg.hasOnSkip then 1 else 0) ∧
    (cfg.hasOnSkip = false → (skipOnboarding cfg s).2 = []) ∧
    (skipOnboarding cfg s).2.count CallbackEvent.onFinishCall = 0 ∧
    (skipOnboarding cfg s).1.currentStepIndex = s.currentStepIndex ∧
    (skipOnboarding cfg s).1.steps = s.steps := by
  unfold skipOnboarding
  cases h : cfg.hasOnSkip <;> simp [h, List.count_cons]

/-- Claim C5: finish() sets `isOpen` to false, invokes `onFinish` exactly
once when provided, leaves `currentStepIndex` unchanged, and two
successive finish() calls invoke `onFinish` twice (no de-duplication). -/
theorem c5_finish (cfg : ProviderConfig) (s : WizardState) :
    (finishOnboarding cfg s).1.isOpen = false ∧
    (finishOnboarding cfg s).2.count CallbackEvent.onFinishCall =
      (if cfg.hasOnFinish then 1 else 0) ∧
    (cfg.hasOnFinish = false → (finishOnboarding cfg s).2 = []) ∧
    (finishOnboarding cfg s).1.currentStepIndex = s.currentStepIndex ∧
    (finishOnboarding cfg s).1.steps = s.steps ∧
    (finishTwice cfg s).2.count CallbackEvent.onFinishCall =
      (if cfg.hasOnFinish then 2 else 0) := by
  unfold finishTwice finishOnboarding
  cases h : cfg.hasOnFinish <;> simp [h, List.count_cons]

/-- Claim C6: reset() unconditionally yields `isOpen = true` and
`currentStepIndex = 0` with `steps` unchanged, for every prior state,
including states reached after finish() or skip(). -/
theorem c6_reset (cfg : ProviderConfig) (s : WizardState) :
    resetOnboarding s =
      { isOpen := true, currentStepIndex := 0, steps := s.steps } ∧
    resetOnboarding (finishOnboarding cfg s).1 =
      { isOpen := true, currentStepIndex := 0, steps := s.steps } ∧
    resetOnboarding (skipOnboarding cfg s).1 =
      { isOpen := true, currentStepIndex := 0, steps := s.steps } := by
  unfold resetOnboarding finishOnboarding skipOnboarding
  exact ⟨rfl, rfl, rfl⟩

/-- Claim C7: constructed with `steps = []`, the modal renders the empty
sentinel (`none`, i.e. `null`), and every finite sequence of advance and
retreat calls leaves the state unchanged, so `currentStepIndex` stays 0. -/
theorem c7_empty_steps (d : Bool) (ops : List NavOp) :
    renderedStep (initState [] d) = none ∧
    applyNavSeq ops (initState [] d) = initState [] d ∧
    (applyNavSeq ops (initState [] d)).currentStepIndex = 0 := by
  have hfix : ∀ op : NavOp, applyNav op (initState [] d) = initState [] d := by
    intro op
    cases op
    · show nextStep (initState [] d) = initState [] d
      unfold nextStep
      split
      · next hlt =>
        have h0 : (initState ([] : List OnboardingStep) d).currentStepIndex
            = 0 := rfl
        have h1 : (initState ([] : List OnboardingStep) d).steps.length
            = 0 := rfl
        rw [h0, h1] at hlt
        omega
      · rfl
    · show prevStep (initState [] d) = initState [] d
      unfold prevStep
      split
      · next hlt => simp [initState] at hlt
      · rfl
  have hseq : applyNavSeq ops (initState [] d) = initState [] d := by
    induction ops with
    | nil => rfl
    | cons op rest ih =>
      calc applyNavSeq (op :: rest) (initState [] d)
          = applyNavSeq rest (applyNav op (initState [] d)) := rfl
        _ = applyNavSeq rest (initState [] d) := by rw [hfix op]
        _ = initState [] d := ih
  refine ⟨rfl, hseq, ?_⟩
  rw [hseq]
  rfl

/-- Counterexample to claim C8: constructing the provider with a
non-array steps value reports no error at all — the construction body
performs no validation, so its error list is empty rather than a single
ConfigurationError. -/
theorem c8_counterexample :
    ¬ (providerConstructionErrors StepsInput.nonArray false).length = 1 := by
  decide

/-- Claim C8 (amended): construction performs no runtime validation of
`steps` and reports no error for any steps value, malformed or not; a
malformed value is silently tolerated (the modal later renders nothing
for falsy or empty steps). -/
theorem c8_no_construction_validation (input : StepsInput) (d : Bool) :
    providerConstructionErrors input d = [] := rfl

/-- Claim C9: `useOnboarding` with no provider in scope (context value
`undefined`) throws immediately; within a provider's scope it returns
the context value without error. -/
theorem c9_use_onboarding (v : OnboardingContextValue) :
    useOnboarding none =
      Except.error "useOnboarding must be used within an OnboardingProvider" ∧
    useOnboarding (some v) = Except.ok v :=
  ⟨rfl, rfl⟩

/-- Claim C10: for every non-empty steps list the modal renders a
well-defined element of the list; when `currentStepIndex` is out of
bounds it falls back to `steps[0]`, and in bounds it renders
`steps[currentStepIndex]`. -/
theorem c10_rendered_step (s : WizardState) (hne : s.steps ≠ []) :
    (∃ st, renderedStep s = some st ∧ st ∈ s.steps) ∧
    (s.steps.length ≤ s.currentStepIndex → renderedStep s = s.steps[0]?) ∧
    (s.currentStepIndex < s.steps.length →
      renderedStep s = s.steps[s.currentStepIndex]?) := by
  have hpos : 0 < s.steps.length := List.length_pos.mpr hne
  have hlen : ¬ s.steps.length = 0 := by omega
  refine ⟨?_, ?_, ?_⟩
  · cases hg : s.steps[s.currentStepIndex]? with
    | some st =>
      refine ⟨st, ?_, List.getElem?_mem hg⟩
      unfold renderedStep
      rw [if_neg hlen, hg]
    | none =>
      refine ⟨s.steps[0], ?_, List.getElem_mem hpos⟩
      unfold renderedStep
      rw [if_neg hlen, hg]
      exact List.getElem?_eq_getElem hpos
  · intro hout
    have hg : s.steps[s.currentStepIndex]? = none := List.getElem?_eq_none hout
    unfold renderedStep
    rw [if_neg hlen, hg]
  · intro hin
    have hg : s.steps[s.currentStepIndex]? = some s.steps[s.currentStepIndex] :=
      List.getElem?_eq_getElem hin
    unfold renderedStep
    rw [if_neg hlen, hg]

/-- A concrete state whose index is out of bounds for its steps list. -/
def outOfBoundsState : WizardState :=
  { isOpen := true, currentStepIndex := 5, steps := sampleSteps }

/-- Witness for C10 at a concrete out-of-bounds state. -/
theorem c10_rendered_step_witness :
    (∃ st, renderedStep outOfBoundsState = some st ∧
      st ∈ outOfBoundsState.steps) ∧
    (outOfBoundsState.steps.length ≤ outOfBoundsState.currentStepIndex →
      renderedStep outOfBoundsState = outOfBoundsState.steps[0]?) ∧
    (outOfBoundsState.currentStepIndex < outOfBoundsState.steps.length →
      renderedStep outOfBoundsState =
        outOfBoundsState.steps[outOfBoundsState.currentStepIndex]?) :=
  c10_rendered_step outOfBoundsState (by decide)

end Onstage
